import Mathlib

/-!
Shallow embedding of the state-machine and accounting logic of the Anchor
program `nft_marketplace` (programs/marketplace/src/lib.rs): registry
minting, escrow matchmaking rooms, the presale campaign, and the NFT
staking ledger.

Machine integers are modelled as `Nat` (u64, u8) and `Int` (i64), with
explicit saturation or wrapping exactly where the source uses a
`saturating_*` operation or an `as` cast.  Public keys are abstracted as
`Nat`.  Fallible instruction handlers return `Except ErrorCode`; the
surrounding runtime commits no state on error, so an `Except.error`
result models a transaction that leaves every account unchanged.
Anchor `#[account(...)]` constraints are checked before the handler body
runs; a failed constraint is modelled by the `AnchorConstraintViolation`
error.
-/

namespace Marketplace

/-- Public keys are abstracted as naturals; distinct values stand for
distinct keys. -/
abbrev Pubkey := Nat

/-- Largest value of a Rust `u64`. -/
def U64_MAX : Nat := 2 ^ 64 - 1

/-- Rust `u64::saturating_add`. -/
def u64satAdd (a b : Nat) : Nat := min (a + b) U64_MAX

/-- Rust `u64::saturating_mul`. -/
def u64satMul (a b : Nat) : Nat := min (a * b) U64_MAX

/-- Rust `u64::saturating_sub`; truncated subtraction on `Nat`. -/
def u64satSub (a b : Nat) : Nat := a - b

/-- Rust `u64::saturating_div`; division of naturals never saturates. -/
def u64satDiv (a b : Nat) : Nat := a / b

/-- Smallest value of a Rust `i64`. -/
def I64_MIN : Int := -(2 ^ 63)

/-- Largest value of a Rust `i64`. -/
def I64_MAX : Int := 2 ^ 63 - 1

/-- Rust `i64::saturating_sub`: the difference clamped to the `i64`
range. -/
def i64satSub (a b : Int) : Int := max I64_MIN (min I64_MAX (a - b))

/-- Rust `i64_value as u64` cast: wraps modulo `2 ^ 64`. -/
def i64AsU64 (a : Int) : Nat := (a % (2 ^ 64 : Int)).toNat

/-- Error codes of the program (`#[error_code] pub enum ErrorCode`),
plus `AnchorConstraintViolation` standing for any failed Anchor account
constraint. -/
inductive ErrorCode
  | CollectionInactive
  | CollectionSoldOut
  | InsufficientFunds
  | Unauthorized
  | RoomNotWaiting
  | RoomNotOngoing
  | RoomHasChallenger
  | PresaleNotActive
  | PresaleEnded
  | PresaleNotEnded
  | InvalidStakeMultiplier
  | NFTNotStaked
  | NFTAlreadyStaked
  | InvalidNFTMint
  | AnchorConstraintViolation
  deriving DecidableEq

/-- SPL token account fields used by the program's constraints. -/
structure TokenAccount where
  owner : Pubkey
  mint : Pubkey
  amount : Nat
  deriving DecidableEq

/-- State struct `StakePool`. -/
structure StakePool where
  admin : Pubkey
  rewardTokenMint : Pubkey
  rewardRatePerSecond : Nat
  totalStaked : Nat
  deriving DecidableEq

/-- State struct `StakeAccount`. -/
structure StakeAccount where
  owner : Pubkey
  nftMint : Pubkey
  nftType : Pubkey
  stakePool : Pubkey
  stakeTimestamp : Int
  lastClaimTimestamp : Int
  stakeMultiplier : Nat
  deriving DecidableEq

/-- Reward computation of `claim_rewards` (lib.rs lines 641-646):
`time_since_last_claim = now.saturating_sub(last_claim)` on i64, cast
`as u64`, then saturating multiplication by the pool rate and the
multiplier snapshot, then saturating division by 10000. -/
def computeClaimRewards (nowTs lastClaimTs : Int)
    (rewardRatePerSecond stakeMultiplier : Nat) : Nat :=
  u64satDiv
    (u64satMul (u64satMul (i64AsU64 (i64satSub nowTs lastClaimTs)) rewardRatePerSecond)
      stakeMultiplier) 10000

/-- Reward computation of `unstake_nft` (lib.rs lines 569-575); textually
the same pipeline as in `claim_rewards`. -/
def computeUnstakeRewards (nowTs lastClaimTs : Int)
    (rewardRatePerSecond stakeMultiplier : Nat) : Nat :=
  u64satDiv
    (u64satMul (u64satMul (i64AsU64 (i64satSub nowTs lastClaimTs)) rewardRatePerSecond)
      stakeMultiplier) 10000

/-- Handler `claim_rewards` (lib.rs lines 632-676).  Requires the caller
to be the record owner; computes the pending reward; pays it and
advances `last_claim_timestamp` only when the reward is positive.
Returns the updated stake record and the amount paid. -/
def claim_rewards (sa : StakeAccount) (pool : StakePool) (staker : Pubkey)
    (nowTs : Int) : Except ErrorCode (StakeAccount × Nat) :=
  if sa.owner = staker then
    if computeClaimRewards nowTs sa.lastClaimTimestamp
        pool.rewardRatePerSecond sa.stakeMultiplier > 0 then
      .ok ({ sa with lastClaimTimestamp := nowTs },
        computeClaimRewards nowTs sa.lastClaimTimestamp
          pool.rewardRatePerSecond sa.stakeMultiplier)
    else
      .ok (sa, computeClaimRewards nowTs sa.lastClaimTimestamp
        pool.rewardRatePerSecond sa.stakeMultiplier)
  else .error .Unauthorized

/-- Handler `unstake_nft` (lib.rs lines 561-629).  Requires the caller to
be the record owner; pays the pending reward, returns the NFT, decrements
`total_staked` with `saturating_sub`, and closes the stake record
(`close = staker`).  Returns the updated pool and the reward paid. -/
def unstake_nft (sa : StakeAccount) (pool : StakePool) (staker : Pubkey)
    (nowTs : Int) : Except ErrorCode (StakePool × Nat) :=
  if sa.owner = staker then
    .ok ({ pool with totalStaked := u64satSub pool.totalStaked 1 },
      computeUnstakeRewards nowTs sa.lastClaimTimestamp
        pool.rewardRatePerSecond sa.stakeMultiplier)
  else .error .Unauthorized

/-- Handler `stake_nft` (lib.rs lines 515-558) together with the Anchor
constraints of `StakeNFT` (lib.rs lines 1321-1327):
`staker_nft_token_account.owner == staker`, `.mint == nft_mint`, and
`.amount >= 1` are validated before the handler body; the handler then
checks that the NFT metadata names the expected collection, records the
stake (snapshotting the multiplier), and increments `total_staked`.
The increment cannot overflow a u64 in any reachable state, so it is a
plain successor. -/
def stake_nft (pool : StakePool) (staker : Pubkey) (stakerNftToken : TokenAccount)
    (nftMint nftTypeKey stakePoolKey : Pubkey) (metadataCollection : Option Pubkey)
    (collectionMint : Pubkey) (ntStakeMultiplier : Nat) (nowTs : Int) :
    Except ErrorCode (StakeAccount × StakePool) :=
  if stakerNftToken.owner = staker ∧ stakerNftToken.mint = nftMint ∧
      stakerNftToken.amount ≥ 1 then
    match metadataCollection with
    | none => .error .InvalidNFTMint
    | some ck =>
      if ck = collectionMint then
        .ok ({ owner := staker, nftMint := nftMint, nftType := nftTypeKey,
               stakePool := stakePoolKey, stakeTimestamp := nowTs,
               lastClaimTimestamp := nowTs, stakeMultiplier := ntStakeMultiplier },
             { pool with totalStaked := pool.totalStaked + 1 })
      else .error .InvalidNFTMint
  else .error .AnchorConstraintViolation

/-- System-level view of one `stake_nft` transaction: on error the
runtime persists nothing, so the (stake-record slot, pool) pair is
unchanged. -/
def stakeStep (st : Option StakeAccount × StakePool) (staker : Pubkey)
    (tok : TokenAccount) (nftMint ntKey poolKey : Pubkey)
    (mcoll : Option Pubkey) (cmint : Pubkey) (mult : Nat) (now : Int) :
    Option StakeAccount × StakePool :=
  match stake_nft st.2 staker tok nftMint ntKey poolKey mcoll cmint mult now with
  | .ok (sa, pool') => (some sa, pool')
  | .error _ => st

/-- Reward formula as worded by the spec: `floor(elapsed *
reward_rate_per_second * multiplier_bps / 10000)` computed with u64
saturating multiplication and division at every step, for a non-negative
elapsed time `e`. -/
def rewardFormulaSpec (e r m : Nat) : Nat :=
  u64satDiv (u64satMul (u64satMul e r) m) 10000

/-- Under a non-negative elapsed time that fits in an i64, the code's
elapsed-time pipeline (saturating i64 subtraction followed by an
`as u64` cast) yields exactly `now - last`. -/
theorem i64AsU64_i64satSub_of_nonneg (now last : Int) (h0 : last ≤ now)
    (h1 : now - last ≤ I64_MAX) :
    i64AsU64 (i64satSub now last) = (now - last).toNat := by
  have hd : 0 ≤ now - last := by omega
  have hmin : min I64_MAX (now - last) = now - last := min_eq_right h1
  have hmax : max I64_MIN (now - last) = now - last := by
    apply max_eq_right
    have : I64_MIN ≤ 0 := by decide
    omega
  have hlt : now - last < (2 ^ 64 : Int) := by
    have : I64_MAX < (2 ^ 64 : Int) := by decide
    omega
  unfold i64AsU64 i64satSub
  rw [hmin, hmax, Int.emod_eq_of_lt hd hlt]

/-- C1: the spec says the elapsed time is `now - last_claim_time` clamped
at 0 when negative, so the reward must be 0 whenever `now <
last_claim_time`.  The code instead casts the negative i64 difference
`as u64`, which wraps modulo `2 ^ 64`: at `now = 0`,
`last_claim_time = 10`, rate 1, multiplier 10000 bps, both reward paths
pay 1844674407370955 reward units instead of 0. -/
theorem C1_negative_elapsed_wraps :
    computeClaimRewards 0 10 1 10000 = 1844674407370955 ∧
    computeUnstakeRewards 0 10 1 10000 = 1844674407370955 ∧
    0 < (1844674407370955 : Nat) := by
  refine ⟨by decide, by decide, by decide⟩

/-- Stake record used by the C2 counterexample: multiplier 1 bps, last
claim at time 0. -/
def saC2 : StakeAccount :=
  { owner := 0, nftMint := 0, nftType := 0, stakePool := 0,
    stakeTimestamp := 0, lastClaimTimestamp := 0, stakeMultiplier := 1 }

/-- Pool used by the C2 counterexample: reward rate 1 unit per second. -/
def poolC2 : StakePool :=
  { admin := 0, rewardTokenMint := 0, rewardRatePerSecond := 1, totalStaked := 1 }

/-- C2 counterexample: at `now = 1 > 0 = last_claim_time` with rate 1 and
multiplier 1 bps the reward floors to 0, the call succeeds, and the
record is returned with `last_claim_timestamp` still 0 — it is not
advanced to `now`, contrary to the claim. -/
theorem C2_zero_reward_no_advance_cex :
    claim_rewards saC2 poolC2 0 1 = .ok (saC2, 0) ∧
    saC2.lastClaimTimestamp ≠ (1 : Int) := by
  refine ⟨by rfl, by decide⟩

/-- C2 (amended): a `claim_rewards` call by the record owner always
succeeds and keeps the record; it pays the computed reward; when the
reward is positive `last_claim_timestamp` advances to `now`, and when
the reward is zero the call is a no-op that leaves the record — in
particular `last_claim_timestamp` — unchanged. -/
theorem C2_claim_rewards_behavior (sa : StakeAccount) (pool : StakePool)
    (staker : Pubkey) (nowTs : Int) (hown : sa.owner = staker)
    (hle : sa.lastClaimTimestamp ≤ nowTs) :
    ∃ sa' paid,
      claim_rewards sa pool staker nowTs = .ok (sa', paid) ∧
      paid = computeClaimRewards nowTs sa.lastClaimTimestamp
        pool.rewardRatePerSecond sa.stakeMultiplier ∧
      (0 < paid → sa' = { sa with lastClaimTimestamp := nowTs }) ∧
      (paid = 0 → sa' = sa) := by
  unfold claim_rewards
  rw [if_pos hown]
  by_cases h : computeClaimRewards nowTs sa.lastClaimTimestamp
      pool.rewardRatePerSecond sa.stakeMultiplier > 0
  · rw [if_pos h]
    exact ⟨{ sa with lastClaimTimestamp := nowTs }, _, rfl, rfl,
      fun _ => rfl, fun h0 => absurd h0 (by omega)⟩
  · rw [if_neg h]
    exact ⟨sa, _, rfl, rfl, fun hp => absurd hp h, fun _ => rfl⟩

/-- Stake record used by the C2 and C3 witnesses: the spec's worked
example (multiplier 20000 bps, last claim at time 0, owner key 5). -/
def saW : StakeAccount :=
  { owner := 5, nftMint := 0, nftType := 0, stakePool := 0,
    stakeTimestamp := 0, lastClaimTimestamp := 0, stakeMultiplier := 20000 }

/-- Pool used by the C2 and C3 witnesses: reward rate 100 units per
second. -/
def poolW : StakePool :=
  { admin := 0, rewardTokenMint := 0, rewardRatePerSecond := 100, totalStaked := 1 }

/-- C2 witness: concrete instantiation of the amended claim with a
positive reward (rate 100, multiplier 20000 bps, elapsed 10 seconds). -/
theorem C2_claim_rewards_behavior_witness :
    ∃ sa' paid,
      claim_rewards saW poolW 5 10 = .ok (sa', paid) ∧
      paid = computeClaimRewards 10 saW.lastClaimTimestamp
        poolW.rewardRatePerSecond saW.stakeMultiplier ∧
      (0 < paid → sa' = { saW with lastClaimTimestamp := 10 }) ∧
      (paid = 0 → sa' = saW) :=
  C2_claim_rewards_behavior saW poolW 5 10 rfl (by decide)

/-- C3: under a non-negative elapsed time `now - last` (fitting in an
i64), both the `claim_rewards` path and the `unstake_nft` path pay
exactly the spec's formula `floor(e * rate * multiplier / 10000)`
computed with u64 saturating multiplication and division at every step;
and at rate 100, multiplier 20000 bps, elapsed 10 the reward is exactly
2000 units. -/
theorem C3_reward_formula (sa : StakeAccount) (pool : StakePool)
    (staker : Pubkey) (nowTs : Int) (hown : sa.owner = staker)
    (h0 : sa.lastClaimTimestamp ≤ nowTs)
    (h1 : nowTs - sa.lastClaimTimestamp ≤ I64_MAX) :
    (∃ sa', claim_rewards sa pool staker nowTs =
      .ok (sa', rewardFormulaSpec (nowTs - sa.lastClaimTimestamp).toNat
        pool.rewardRatePerSecond sa.stakeMultiplier)) ∧
    (∃ pool', unstake_nft sa pool staker nowTs =
      .ok (pool', rewardFormulaSpec (nowTs - sa.lastClaimTimestamp).toNat
        pool.rewardRatePerSecond sa.stakeMultiplier)) ∧
    rewardFormulaSpec 10 100 20000 = 2000 := by
  have hc : computeClaimRewards nowTs sa.lastClaimTimestamp
      pool.rewardRatePerSecond sa.stakeMultiplier =
      rewardFormulaSpec (nowTs - sa.lastClaimTimestamp).toNat
        pool.rewardRatePerSecond sa.stakeMultiplier := by
    unfold computeClaimRewards rewardFormulaSpec
    rw [i64AsU64_i64satSub_of_nonneg nowTs sa.lastClaimTimestamp h0 h1]
  have hu : computeUnstakeRewards nowTs sa.lastClaimTimestamp
      pool.rewardRatePerSecond sa.stakeMultiplier =
      rewardFormulaSpec (nowTs - sa.lastClaimTimestamp).toNat
        pool.rewardRatePerSecond sa.stakeMultiplier := by
    unfold computeUnstakeRewards rewardFormulaSpec
    rw [i64AsU64_i64satSub_of_nonneg nowTs sa.lastClaimTimestamp h0 h1]
  refine ⟨?_, ?_, by decide⟩
  · unfold claim_rewards
    rw [if_pos hown]
    by_cases h : computeClaimRewards nowTs sa.lastClaimTimestamp
        pool.rewardRatePerSecond sa.stakeMultiplier > 0
    · rw [if_pos h, hc]
      exact ⟨_, rfl⟩
    · rw [if_neg h, hc]
      exact ⟨sa, rfl⟩
  · unfold unstake_nft
    rw [if_pos hown, hu]
    exact ⟨_, rfl⟩

/-- C3 witness: concrete instantiation realising the spec's worked
example (rate 100, multiplier 20000 bps, elapsed 10 seconds, reward
2000). -/
theorem C3_reward_formula_witness :
    (∃ sa', claim_rewards saW poolW 5 10 =
      .ok (sa', rewardFormulaSpec 10 poolW.rewardRatePerSecond saW.stakeMultiplier)) ∧
    rewardFormulaSpec 10 100 20000 = 2000 := by
  have h := C3_reward_formula saW poolW 5 10 rfl (by decide) (by decide)
  exact ⟨h.1, h.2.2⟩

/-- C10: `stake_nft` has an ownership precondition enforced by the Anchor
constraints on `staker_nft_token_account`: when the staker's token
account for the nominated mint is not owned by the staker, or holds no
unit, the call fails before the handler runs, no stake record is
created, and `total_staked` is unchanged. -/
theorem C10_stake_nft_ownership (pool : StakePool) (staker : Pubkey)
    (tok : TokenAccount) (nftMint ntKey poolKey : Pubkey)
    (mcoll : Option Pubkey) (cmint : Pubkey) (mult : Nat) (now : Int)
    (hfail : tok.owner ≠ staker ∨ tok.amount < 1) :
    stake_nft pool staker tok nftMint ntKey poolKey mcoll cmint mult now =
      .error .AnchorConstraintViolation ∧
    stakeStep (none, pool) staker tok nftMint ntKey poolKey mcoll cmint mult now =
      (none, pool) := by
  have hguard : ¬ (tok.owner = staker ∧ tok.mint = nftMint ∧ tok.amount ≥ 1) := by
    rcases hfail with h | h
    · intro hc
      exact h hc.1
    · intro hc
      omega
  have hs : stake_nft pool staker tok nftMint ntKey poolKey mcoll cmint mult now =
      .error .AnchorConstraintViolation := by
    unfold stake_nft
    rw [if_neg hguard]
  refine ⟨hs, ?_⟩
  unfold stakeStep
  rw [hs]

/-- Pool used by the C10 witness. -/
def poolC10 : StakePool :=
  { admin := 0, rewardTokenMint := 0, rewardRatePerSecond := 100, totalStaked := 4 }

/-- Token account used by the C10 witness: owned by key 2 while key 1
tries to stake. -/
def tokC10 : TokenAccount := { owner := 2, mint := 3, amount := 1 }

/-- C10 witness: a token account owned by key 2 while key 1 tries to
stake. -/
theorem C10_stake_nft_ownership_witness :
    stake_nft poolC10 1 tokC10 3 0 0 (some 9) 9 10000 50 =
      .error .AnchorConstraintViolation ∧
    stakeStep (none, poolC10) 1 tokC10 3 0 0 (some 9) 9 10000 50 =
      (none, poolC10) :=
  C10_stake_nft_ownership poolC10 1 tokC10 3 0 0 (some 9) 9 10000 50
    (Or.inl (by decide))

/-- State struct `Presale`. -/
structure Presale where
  admin : Pubkey
  startTs : Int
  endTs : Int
  totalRaised : Nat
  targetLamports : Nat
  isActive : Bool
  deriving DecidableEq

/-- Handler `contribute_presale` (lib.rs lines 439-470).  Requires a
positive amount, an active presale, and `now <= end_ts`; transfers the
lamports into the presale escrow, accumulates the contributor's record
with `saturating_add`, and accumulates `total_raised` with
`saturating_add`.  `contribAmount` is the contributor's current record
amount (0 for a fresh `init_if_needed` record); the result carries the
updated presale and the updated record amount. -/
def contribute_presale (p : Presale) (contribAmount : Nat) (lamports : Nat)
    (nowTs : Int) : Except ErrorCode (Presale × Nat) :=
  if lamports > 0 then
    if p.isActive then
      if nowTs ≤ p.endTs then
        .ok ({ p with totalRaised := u64satAdd p.totalRaised lamports },
          u64satAdd contribAmount lamports)
      else .error .PresaleEnded
    else .error .PresaleNotActive
  else .error .InsufficientFunds

/-- Handler `end_presale` (lib.rs lines 473-496).  Requires an active
presale, the admin as caller, and the timer or the target to be reached;
moves `presale_lamports - rent_exempt` (saturating) to the admin by
direct balance adjustment and deactivates the presale.  The result
carries the updated presale and the amount moved to the admin. -/
def end_presale (p : Presale) (admin : Pubkey) (nowTs : Int)
    (presaleLamports rentExempt : Nat) : Except ErrorCode (Presale × Nat) :=
  if p.isActive then
    if admin = p.admin then
      if nowTs ≥ p.endTs ∨ p.totalRaised ≥ p.targetLamports then
        .ok ({ p with isActive := false }, u64satSub presaleLamports rentExempt)
      else .error .PresaleNotEnded
    else .error .Unauthorized
  else .error .PresaleNotActive

/-- C4: `end_presale` fails (for every caller and state) whenever
`now < end_ts` and `total_raised < target`, leaving the campaign
unchanged (an `Except.error` commits nothing); when the campaign is
active, the caller is the admin, and the timer or target is reached, it
succeeds, moves the transferable balance, and sets `is_active` to
`false`, after which every further `end_presale` call fails with the
state-violation error `PresaleNotActive`. -/
theorem C4_end_presale_spec (p : Presale) (caller : Pubkey) (nowTs : Int)
    (bal rent : Nat) :
    (nowTs < p.endTs ∧ p.totalRaised < p.targetLamports →
      ∃ e, end_presale p caller nowTs bal rent = .error e) ∧
    (p.isActive = true → caller = p.admin →
      (nowTs ≥ p.endTs ∨ p.totalRaised ≥ p.targetLamports) →
      end_presale p caller nowTs bal rent =
        .ok ({ p with isActive := false }, u64satSub bal rent) ∧
      ∀ (c2 : Pubkey) (n2 : Int) (b2 r2 : Nat),
        end_presale { p with isActive := false } c2 n2 b2 r2 =
          .error .PresaleNotActive) := by
  constructor
  · rintro ⟨htime, htarget⟩
    unfold end_presale
    by_cases ha : p.isActive
    · rw [if_pos ha]
      by_cases hadm : caller = p.admin
      · rw [if_pos hadm, if_neg (by omega)]
        exact ⟨_, rfl⟩
      · rw [if_neg hadm]
        exact ⟨_, rfl⟩
    · rw [if_neg ha]
      exact ⟨_, rfl⟩
  · intro ha hadm hcond
    constructor
    · unfold end_presale
      rw [if_pos ha, if_pos hadm, if_pos hcond]
    · intro c2 n2 b2 r2
      unfold end_presale
      rw [if_neg (by simp)]

/-- Presale fixture shared by the C4 and C7 witnesses: active, window
ending at time 86400, nothing raised yet, target 845 SOL in lamports. -/
def presaleW : Presale :=
  { admin := 0, startTs := 0, endTs := 86400, totalRaised := 0,
    targetLamports := 845000000000, isActive := true }

/-- C4 witness: the admin ends the presale exactly at the end of the
window; a second call fails with `PresaleNotActive`. -/
theorem C4_end_presale_spec_witness :
    end_presale presaleW 0 86400 50 20 =
      .ok ({ presaleW with isActive := false }, 30) ∧
    end_presale { presaleW with isActive := false } 0 86400 50 20 =
      .error .PresaleNotActive := by
  have h := (C4_end_presale_spec presaleW 0 86400 50 20).2 rfl rfl
    (Or.inl (by decide))
  exact ⟨h.1, h.2 0 86400 50 20⟩

/-- One `contribute_presale` call as seen by the ledger: who contributes,
how many lamports, at what clock reading. -/
structure ContribOp where
  contributor : Pubkey
  lamports : Nat
  nowTs : Int

/-- Applies one contribution to the presale and the per-contributor
record store (`Pubkey → Nat`, defaulting to 0 for records not yet
created, matching `init_if_needed` zero-initialisation). -/
def applyContrib (st : Presale × (Pubkey → Nat)) (op : ContribOp) :
    Except ErrorCode (Presale × (Pubkey → Nat)) :=
  match contribute_presale st.1 (st.2 op.contributor) op.lamports op.nowTs with
  | .error e => .error e
  | .ok (p, amt) => .ok (p, Function.update st.2 op.contributor amt)

/-- Runs a sequence of contributions, stopping at the first error. -/
def runContribs (st : Presale × (Pubkey → Nat)) (ops : List ContribOp) :
    Except ErrorCode (Presale × (Pubkey → Nat)) :=
  ops.foldlM applyContrib st

/-- Sum of the lamports of a contribution sequence (exact, in `Nat`). -/
def opsSum : List ContribOp → Nat
  | [] => 0
  | op :: ops => op.lamports + opsSum ops

/-- Sum of the lamports contributed by one contributor (exact, in
`Nat`). -/
def opsSumFor (c : Pubkey) : List ContribOp → Nat
  | [] => 0
  | op :: ops => (if op.contributor = c then op.lamports else 0) + opsSumFor c ops

/-- Chained u64 saturating addition clamps the exact sum at
`U64_MAX`. -/
theorem u64satAdd_min (s y : Nat) :
    u64satAdd (min s U64_MAX) y = min (s + y) U64_MAX := by
  unfold u64satAdd
  omega

/-- Accumulation invariant of `runContribs`: if the running total and
every record are clamped sums, they stay clamped sums. -/
theorem runContribs_invariant (ops : List ContribOp) :
    ∀ (p : Presale) (f : Pubkey → Nat) (s : Nat) (g : Pubkey → Nat),
      p.totalRaised = min s U64_MAX → (∀ c, f c = min (g c) U64_MAX) →
      ∀ p' f', runContribs (p, f) ops = .ok (p', f') →
        p'.totalRaised = min (s + opsSum ops) U64_MAX ∧
        ∀ c, f' c = min (g c + opsSumFor c ops) U64_MAX := by
  induction ops with
  | nil =>
    intro p f s g hp hf p' f' hrun
    have : Except.ok (ε := ErrorCode) (p, f) = .ok (p', f') := hrun
    obtain ⟨hp', hf'⟩ := Prod.mk.injEq .. ▸ (Except.ok.injEq .. ▸ this)
    subst hp'
    subst hf'
    refine ⟨by simpa [opsSum] using hp, fun c => by simpa [opsSumFor] using hf c⟩
  | cons op ops ih =>
    intro p f s g hp hf p' f' hrun
    have hrun' : (applyContrib (p, f) op).bind
        (fun st => runContribs st ops) = .ok (p', f') := hrun
    by_cases h1 : op.lamports > 0
    · by_cases h2 : p.isActive
      · by_cases h3 : op.nowTs ≤ p.endTs
        · have happ : applyContrib (p, f) op =
              .ok ({ p with totalRaised := u64satAdd p.totalRaised op.lamports },
                Function.update f op.contributor
                  (u64satAdd (f op.contributor) op.lamports)) := by
            unfold applyContrib contribute_presale
            rw [if_pos h1, if_pos h2, if_pos h3]
          rw [happ] at hrun'
          have hnext := ih _ _ (s + op.lamports)
            (fun c => g c + if op.contributor = c then op.lamports else 0)
            (by rw [hp]; exact u64satAdd_min s op.lamports)
            (by
              intro c
              show Function.update f op.contributor
                  (u64satAdd (f op.contributor) op.lamports) c =
                min (g c + if op.contributor = c then op.lamports else 0) U64_MAX
              by_cases hc : op.contributor = c
              · rw [if_pos hc, ← hc, Function.update_same, hf op.contributor]
                exact u64satAdd_min _ _
              · rw [if_neg hc, Function.update_noteq (fun h => hc h.symm),
                  hf c, Nat.add_zero])
            p' f' hrun'
          refine ⟨?_, ?_⟩
          · rw [hnext.1]
            simp only [opsSum]
            omega
          · intro c
            rw [hnext.2 c]
            show min (g c + (if op.contributor = c then op.lamports else 0) +
                opsSumFor c ops) U64_MAX =
              min (g c + opsSumFor c (op :: ops)) U64_MAX
            simp only [opsSumFor]
            by_cases hcc : op.contributor = c
            · rw [if_pos hcc]
              omega
            · rw [if_neg hcc]
              omega
        · exfalso
          have : applyContrib (p, f) op = .error .PresaleEnded := by
            unfold applyContrib contribute_presale
            rw [if_pos h1, if_pos h2, if_neg h3]
          rw [this] at hrun'
          exact Except.noConfusion hrun'
      · exfalso
        have : applyContrib (p, f) op = .error .PresaleNotActive := by
          unfold applyContrib contribute_presale
          rw [if_pos h1, if_neg h2]
        rw [this] at hrun'
        exact Except.noConfusion hrun'
    · exfalso
      have : applyContrib (p, f) op = .error .InsufficientFunds := by
        unfold applyContrib contribute_presale
        rw [if_neg h1]
      rw [this] at hrun'
      exact Except.noConfusion hrun'

/-- C7 (amended): for every sequence of successful contributions starting
from a fresh campaign, `total_raised` equals the exact sum of all
amounts clamped at `U64_MAX` (the adds are `saturating_add`), and each
contributor's record equals that contributor's exact sum clamped at
`U64_MAX`; in particular both equal the exact sums whenever those sums
stay below `2 ^ 64`. -/
theorem C7_contribution_sums (ops : List ContribOp) (p0 : Presale)
    (p : Presale) (f : Pubkey → Nat) (h0 : p0.totalRaised = 0)
    (hrun : runContribs (p0, fun _ => 0) ops = .ok (p, f)) :
    p.totalRaised = min (opsSum ops) U64_MAX ∧
    ∀ c, f c = min (opsSumFor c ops) U64_MAX := by
  have h := runContribs_invariant ops p0 (fun _ => 0) 0 (fun _ => 0)
    (by simpa using h0) (fun c => by simp) p f hrun
  simpa using h

/-- C7 witness: a single successful contribution of 5 lamports by
contributor 1. -/
theorem C7_contribution_sums_witness :
    ({ presaleW with totalRaised := 5 } : Presale).totalRaised =
      min (opsSum [⟨1, 5, 0⟩]) U64_MAX ∧
    ∀ c, Function.update (fun _ => (0 : Nat)) 1 5 c =
      min (opsSumFor c [⟨1, 5, 0⟩]) U64_MAX :=
  C7_contribution_sums [⟨1, 5, 0⟩] presaleW
    { presaleW with totalRaised := 5 } (Function.update (fun _ => 0) 1 5)
    rfl rfl

/-- Contribution sequence of the C7 counterexample: contributor 1 twice
contributes the largest representable amount. -/
def opsCex : List ContribOp := [⟨1, U64_MAX, 0⟩, ⟨1, U64_MAX, 0⟩]

/-- C7 counterexample: two successful contributions of `U64_MAX` lamports
leave `total_raised = U64_MAX`, while the exact sum of the contributed
amounts is `2 * U64_MAX` — the claimed equality with the exact sum fails
once the saturating addition clamps. -/
theorem C7_contribution_sums_cex :
    (runContribs (presaleW, fun _ => 0) opsCex).map (fun st => st.1.totalRaised) =
      .ok U64_MAX ∧
    opsSum opsCex = U64_MAX + U64_MAX ∧
    U64_MAX ≠ U64_MAX + U64_MAX := by
  refine ⟨by rfl, by rfl, by decide⟩

/-- Enum `RoomStatus` of the source. -/
inductive RoomStatus
  | Waiting
  | Ongoing
  | Closed
  deriving DecidableEq

/-- The `RoomStatus as u8` cast used when storing the status field. -/
def RoomStatus.toU8 : RoomStatus → Nat
  | .Waiting => 0
  | .Ongoing => 1
  | .Closed => 2

/-- State struct `Room`; `status` is stored as a u8 as in the source. -/
structure Room where
  creator : Pubkey
  challenger : Option Pubkey
  roomId : Nat
  stakeLamports : Nat
  status : Nat
  deriving DecidableEq

/-- Handler `create_room` (lib.rs lines 297-336) together with the
Anchor constraints of `CreateRoom` (`creator_nft_token.owner == creator`
and `.mint == nft_mint`).  Requires a positive stake, creator ownership
of at least one unit of the nominated NFT, and NFT metadata naming the
expected collection; initialises the room in `Waiting` status with no
challenger and escrows the stake. -/
def create_room (creator : Pubkey) (roomId stakeLamports : Nat)
    (creatorNftToken : TokenAccount) (nftMint : Pubkey)
    (metadataCollection : Option Pubkey) (collectionMint : Pubkey) :
    Except ErrorCode Room :=
  if creatorNftToken.owner = creator ∧ creatorNftToken.mint = nftMint then
    if stakeLamports > 0 then
      if creatorNftToken.amount ≥ 1 then
        match metadataCollection with
        | none => .error .Unauthorized
        | some ck =>
          if ck = collectionMint then
            .ok { creator := creator, challenger := none, roomId := roomId,
                  stakeLamports := stakeLamports,
                  status := RoomStatus.Waiting.toU8 }
          else .error .Unauthorized
      else .error .Unauthorized
    else .error .InsufficientFunds
  else .error .AnchorConstraintViolation

/-- Handler `join_room` (lib.rs lines 339-371) together with the Anchor
constraints of `JoinRoom` (`challenger_nft_token.owner == challenger`
and `.mint == nft_mint`).  The handler checks, in source order: status
is `Waiting`, no challenger is set, the joiner differs from the creator,
the joiner owns at least one unit of the nominated NFT, and the NFT
metadata names the expected collection; then escrows the matching stake,
sets the challenger, and moves the status to `Ongoing`. -/
def join_room (room : Room) (challenger : Pubkey)
    (challengerNftToken : TokenAccount) (nftMint : Pubkey)
    (metadataCollection : Option Pubkey) (collectionMint : Pubkey) :
    Except ErrorCode Room :=
  if challengerNftToken.owner = challenger ∧ challengerNftToken.mint = nftMint then
    if room.status = RoomStatus.Waiting.toU8 then
      if room.challenger = none then
        if challenger ≠ room.creator then
          if challengerNftToken.amount ≥ 1 then
            match metadataCollection with
            | none => .error .Unauthorized
            | some ck =>
              if ck = collectionMint then
                .ok { room with challenger := some challenger, status := RoomStatus.Ongoing.toU8 }
              else .error .Unauthorized
          else .error .Unauthorized
        else .error .Unauthorized
      else .error .RoomHasChallenger
    else .error .RoomNotWaiting
  else .error .AnchorConstraintViolation

/-- Handler `resolve_room` (lib.rs lines 374-409).  Requires status
`Ongoing` and the creator as caller; transfers
`room_lamports.saturating_sub(rent_exempt)` to the creator, and the
Anchor `close = creator` attribute then moves the remaining balance
(the storage reserve) to the creator as well and releases the room
account.  The result carries the payout transfer amount and the
close-refund amount. -/
def resolve_room (room : Room) (caller : Pubkey)
    (roomLamports rentExempt : Nat) : Except ErrorCode (Nat × Nat) :=
  if room.status = RoomStatus.Ongoing.toU8 then
    if caller = room.creator then
      .ok (u64satSub roomLamports rentExempt,
        roomLamports - u64satSub roomLamports rentExempt)
    else .error .Unauthorized
  else .error .RoomNotOngoing

/-- One room-level transaction. -/
inductive RoomOp
  | create (creator : Pubkey) (roomId stakeLamports : Nat) (tok : TokenAccount)
      (nftMint : Pubkey) (mcoll : Option Pubkey) (cmint : Pubkey)
  | join (challenger : Pubkey) (tok : TokenAccount) (nftMint : Pubkey)
      (mcoll : Option Pubkey) (cmint : Pubkey)
  | resolve (caller : Pubkey) (roomLamports rentExempt : Nat)

/-- System-level view of one room transaction on one room address:
`create` needs the account to be absent (Anchor `init` fails on an
existing account), `join` and `resolve` need it present, an error
commits nothing, and a successful `resolve` closes the account. -/
def roomStep (s : Option Room) (op : RoomOp) : Option Room :=
  match s, op with
  | none, .create c rid st tok nm mc cm =>
    match create_room c rid st tok nm mc cm with
    | .ok r => some r
    | .error _ => none
  | some r, .create _ _ _ _ _ _ _ => some r
  | some r, .join ch tok nm mc cm =>
    match join_room r ch tok nm mc cm with
    | .ok r' => some r'
    | .error _ => some r
  | none, .join _ _ _ _ _ => none
  | some r, .resolve caller bal rent =>
    match resolve_room r caller bal rent with
    | .ok _ => none
    | .error _ => some r
  | none, .resolve _ _ _ => none

/-- The room stored at one address after a sequence of transactions,
starting from an absent account. -/
def roomReach (ops : List RoomOp) : Option Room :=
  ops.foldl roomStep none

/-- Room of the C5 counterexample: already `Ongoing`, created by key 7. -/
def roomC5 : Room :=
  { creator := 7, challenger := some 8, roomId := 1, stakeLamports := 5,
    status := RoomStatus.Ongoing.toU8 }

/-- Token account of the C5 counterexample, owned by the creator key 7. -/
def tokC5 : TokenAccount := { owner := 7, mint := 3, amount := 1 }

/-- C5 counterexample: when the joining identity equals the room's
creator but the room is not `Waiting`, `join_room` fails with the
state-violation error `RoomNotWaiting`, not with the authorization
error — the status check precedes the identity check in the source. -/
theorem C5_join_room_error_precedence_cex :
    roomC5.creator = 7 ∧
    join_room roomC5 7 tokC5 3 (some 9) 9 = .error .RoomNotWaiting ∧
    ErrorCode.RoomNotWaiting ≠ ErrorCode.Unauthorized := by
  refine ⟨rfl, by rfl, by decide⟩

/-- C5 (amended): `join_room` fails with the authorization error
(`Unauthorized`) when the joining identity equals the creator and the
room is `Waiting` with no challenger set; it fails with a
state-violation error when the status is not `Waiting`
(`RoomNotWaiting`) or — when `Waiting` — a challenger is already set
(`RoomHasChallenger`); the state checks take precedence over the
identity check, and every failing call commits nothing (an
`Except.error` leaves the room and all balances unchanged). -/
theorem C5_join_room_failures (room : Room) (ch : Pubkey)
    (tok : TokenAccount) (nftMint : Pubkey) (mcoll : Option Pubkey)
    (cmint : Pubkey) (hto : tok.owner = ch) (htm : tok.mint = nftMint) :
    (room.status ≠ RoomStatus.Waiting.toU8 →
      join_room room ch tok nftMint mcoll cmint = .error .RoomNotWaiting) ∧
    (room.status = RoomStatus.Waiting.toU8 → room.challenger ≠ none →
      join_room room ch tok nftMint mcoll cmint = .error .RoomHasChallenger) ∧
    (room.status = RoomStatus.Waiting.toU8 → room.challenger = none →
      ch = room.creator →
      join_room room ch tok nftMint mcoll cmint = .error .Unauthorized) := by
  refine ⟨?_, ?_, ?_⟩
  · intro hst
    unfold join_room
    rw [if_pos ⟨hto, htm⟩, if_neg hst]
  · intro hst hch
    unfold join_room
    rw [if_pos ⟨hto, htm⟩, if_pos hst, if_neg hch]
  · intro hst hch hineq
    unfold join_room
    rw [if_pos ⟨hto, htm⟩, if_pos hst, if_pos hch,
      if_neg (by simpa using hineq)]

/-- Waiting room used by the C5 witness. -/
def roomC5w : Room :=
  { creator := 7, challenger := none, roomId := 1, stakeLamports := 5,
    status := RoomStatus.Waiting.toU8 }

/-- C5 witness: on a `Waiting` room with no challenger, the creator
attempting to join itself is rejected with `Unauthorized`. -/
theorem C5_join_room_failures_witness :
    join_room roomC5w 7 tokC5 3 (some 9) 9 = .error .Unauthorized :=
  (C5_join_room_failures roomC5w 7 tokC5 3 (some 9) 9 rfl rfl).2.2 rfl rfl rfl

/-- Room of the C8 counterexample and witness: `Ongoing`, created by
key 7 with stake 5, challenger key 8. -/
def roomC8 : Room :=
  { creator := 7, challenger := some 8, roomId := 1, stakeLamports := 5,
    status := RoomStatus.Ongoing.toU8 }

/-- C8 counterexample: with stake 5 and storage reserve 3, the room holds
`3 + 10 = 13` lamports after `create_room` and `join_room` (the creator
paid the reserve at account creation plus both players escrowed 5); a
successful `resolve_room` pays the creator the transferable 10 by
transfer and the remaining reserve 3 by account close, so the creator's
balance increases by `10 + 3 = 13`, not by `10 - 3` as the claim
states. -/
theorem C8_resolve_room_payout_cex :
    resolve_room roomC8 7 13 3 = .ok (10, 3) ∧
    (10 + 3 : Nat) ≠ 10 - 3 := by
  refine ⟨by rfl, by decide⟩

/-- C8 (amended): `resolve_room` succeeds only when the room's status is
`Ongoing` and the caller is the room's creator; the payout transfer pays
the creator exactly `transferable = custodial_balance - storage_reserve`
(= `2 * stake` after create + join), the account close additionally
returns the storage reserve to the creator — so the creator's balance
increases by the full custodial balance `2 * stake + reserve` (with
stake 5: `10 + reserve`, not `10 - reserve`) — and the room account is
released and no longer addressable. -/
theorem C8_resolve_room_payout (room : Room) (caller : Pubkey)
    (bal rent : Nat) :
    (room.status ≠ RoomStatus.Ongoing.toU8 →
      resolve_room room caller bal rent = .error .RoomNotOngoing) ∧
    (room.status = RoomStatus.Ongoing.toU8 → caller ≠ room.creator →
      resolve_room room caller bal rent = .error .Unauthorized) ∧
    (room.status = RoomStatus.Ongoing.toU8 → caller = room.creator →
      bal = rent + 2 * room.stakeLamports →
      resolve_room room caller bal rent = .ok (2 * room.stakeLamports, rent) ∧
      2 * room.stakeLamports + rent = bal ∧
      roomStep (some room) (.resolve caller bal rent) = none) := by
  refine ⟨?_, ?_, ?_⟩
  · intro hst
    unfold resolve_room
    rw [if_neg hst]
  · intro hst hcr
    unfold resolve_room
    rw [if_pos hst, if_neg hcr]
  · intro hst hcr hbal
    have htr : u64satSub bal rent = 2 * room.stakeLamports := by
      unfold u64satSub
      omega
    have hrf : bal - u64satSub bal rent = rent := by
      unfold u64satSub
      omega
    have hok : resolve_room room caller bal rent =
        .ok (2 * room.stakeLamports, rent) := by
      unfold resolve_room
      rw [if_pos hst, if_pos hcr, hrf, htr]
    refine ⟨hok, by omega, ?_⟩
    simp only [roomStep, hok]

/-- C8 witness: the creator resolves the room of the counterexample
state; the payout transfer is 10, the close refund is 3, their sum is
the full room balance 13, and the room account is gone. -/
theorem C8_resolve_room_payout_witness :
    resolve_room roomC8 7 13 3 = .ok (2 * roomC8.stakeLamports, 3) ∧
    2 * roomC8.stakeLamports + 3 = 13 ∧
    roomStep (some roomC8) (.resolve 7 13 3) = none :=
  (C8_resolve_room_payout roomC8 7 13 3).2.2 rfl rfl (by decide)

/-- A successful `create_room` always stores the `Waiting` status. -/
theorem create_room_ok_status (c : Pubkey) (rid st : Nat)
    (tok : TokenAccount) (nm : Pubkey) (mc : Option Pubkey) (cm : Pubkey)
    (r : Room) (h : create_room c rid st tok nm mc cm = .ok r) :
    r.status = RoomStatus.Waiting.toU8 := by
  cases mc with
  | none =>
    unfold create_room at h
    split_ifs at h
  | some ck =>
    unfold create_room at h
    dsimp only at h
    split_ifs at h with h1 h2 h3 h4
    · injection h with h5
      rw [← h5]

/-- A successful `join_room` always stores the `Ongoing` status. -/
theorem join_room_ok_status (room : Room) (ch : Pubkey)
    (tok : TokenAccount) (nm : Pubkey) (mc : Option Pubkey) (cm : Pubkey)
    (r : Room) (h : join_room room ch tok nm mc cm = .ok r) :
    r.status = RoomStatus.Ongoing.toU8 := by
  cases mc with
  | none =>
    unfold join_room at h
    split_ifs at h
  | some ck =>
    unfold join_room at h
    dsimp only at h
    split_ifs at h with h1 h2 h3 h4 h5
    · injection h with h6
      rw [← h6]

/-- One room transaction preserves the invariant that a stored status is
`Waiting` or `Ongoing`. -/
theorem roomStep_status_inv (s : Option Room) (op : RoomOp)
    (hs : ∀ r, s = some r →
      r.status = RoomStatus.Waiting.toU8 ∨ r.status = RoomStatus.Ongoing.toU8) :
    ∀ r, roomStep s op = some r →
      r.status = RoomStatus.Waiting.toU8 ∨ r.status = RoomStatus.Ongoing.toU8 := by
  intro r hr
  cases s with
  | none =>
    cases op with
    | create c rid st tok nm mc cm =>
      simp only [roomStep] at hr
      cases hcr : create_room c rid st tok nm mc cm with
      | ok r0 =>
        rw [hcr] at hr
        injection hr with h
        subst h
        exact Or.inl (create_room_ok_status c rid st tok nm mc cm r0 hcr)
      | error e =>
        rw [hcr] at hr
        exact Option.noConfusion hr
    | join ch tok nm mc cm =>
      simp only [roomStep] at hr
      exact Option.noConfusion hr
    | resolve caller bal rent =>
      simp only [roomStep] at hr
      exact Option.noConfusion hr
  | some r0 =>
    cases op with
    | create c rid st tok nm mc cm =>
      simp only [roomStep] at hr
      injection hr with h
      subst h
      exact hs _ rfl
    | join ch tok nm mc cm =>
      simp only [roomStep] at hr
      cases hjr : join_room r0 ch tok nm mc cm with
      | ok r1 =>
        rw [hjr] at hr
        injection hr with h
        subst h
        exact Or.inr (join_room_ok_status r0 ch tok nm mc cm r1 hjr)
      | error e =>
        rw [hjr] at hr
        injection hr with h
        subst h
        exact hs r0 rfl
    | resolve caller bal rent =>
      simp only [roomStep] at hr
      cases hrr : resolve_room r0 caller bal rent with
      | ok pr =>
        rw [hrr] at hr
        exact Option.noConfusion hr
      | error e =>
        rw [hrr] at hr
        injection hr with h
        subst h
        exact hs r0 rfl

/-- The invariant holds along any fold of room transactions. -/
theorem roomFold_status_inv (ops : List RoomOp) :
    ∀ s, (∀ r, s = some r →
        r.status = RoomStatus.Waiting.toU8 ∨ r.status = RoomStatus.Ongoing.toU8) →
      ∀ r, ops.foldl roomStep s = some r →
        r.status = RoomStatus.Waiting.toU8 ∨ r.status = RoomStatus.Ongoing.toU8 := by
  induction ops with
  | nil =>
    intro s hs r hr
    exact hs r hr
  | cons op ops ih =>
    intro s hs r hr
    rw [List.foldl_cons] at hr
    exact ih (roomStep s op) (roomStep_status_inv s op hs) r hr

/-- C9: after any sequence of room transactions starting from an absent
account, every room that still exists has status `Waiting` or `Ongoing`;
the `Closed` status value is never stored, because a successful
`resolve_room` destroys the account without writing `status = Closed`. -/
theorem C9_no_stored_closed_status (ops : List RoomOp) :
    ∀ r, roomReach ops = some r →
      r.status = RoomStatus.Waiting.toU8 ∨ r.status = RoomStatus.Ongoing.toU8 := by
  intro r hr
  exact roomFold_status_inv ops none (fun r0 h => Option.noConfusion h) r hr

/-- Creator-owned token account for the C9 witness. -/
def tokC9 : TokenAccount := { owner := 7, mint := 3, amount := 1 }

/-- Challenger-owned token account for the C9 witness. -/
def tokC9j : TokenAccount := { owner := 8, mint := 4, amount := 1 }

/-- Transaction sequence of the C9 witness: create a room, then a
challenger joins it. -/
def opsC9 : List RoomOp :=
  [.create 7 1 5 tokC9 3 (some 9) 9, .join 8 tokC9j 4 (some 9) 9]

/-- Room stored after the C9 witness sequence. -/
def roomC9r : Room :=
  { creator := 7, challenger := some 8, roomId := 1, stakeLamports := 5,
    status := RoomStatus.Ongoing.toU8 }

/-- C9 witness: the room reached by create-then-join exists and its
status is `Waiting` or `Ongoing`. -/
theorem C9_no_stored_closed_status_witness :
    roomReach opsC9 = some roomC9r ∧
    (roomC9r.status = RoomStatus.Waiting.toU8 ∨
      roomC9r.status = RoomStatus.Ongoing.toU8) :=
  ⟨rfl, C9_no_stored_closed_status opsC9 roomC9r rfl⟩

/-- State struct `NftType`; the variable-length `name` and `uri` fields
are irrelevant to supply accounting and omitted. -/
structure NftType where
  collection : Pubkey
  price : Nat
  maxSupply : Nat
  currentSupply : Nat
  stakeMultiplier : Nat
  deriving DecidableEq

/-- Handler `mint_nft_from_collection` (lib.rs lines 171-294), supply
accounting part.  Requires the collection active (line 178) and
`current_supply < max_supply` (line 179); payment, issuance, metadata
and verification are external steps assumed to succeed, and only then is
`current_supply` incremented (line 284).  The guarded increment cannot
overflow a u64, so it is a plain successor. -/
def mint_nft_from_collection (collectionIsActive : Bool) (nt : NftType) :
    Except ErrorCode NftType :=
  if collectionIsActive then
    if nt.currentSupply < nt.maxSupply then
      .ok { nt with currentSupply := nt.currentSupply + 1 }
    else .error .CollectionSoldOut
  else .error .CollectionInactive

/-- Iterated minting: the state after `k` consecutive
`mint_nft_from_collection` calls, propagating the first error. -/
def mintIter (active : Bool) (nt : NftType) : Nat → Except ErrorCode NftType
  | 0 => .ok nt
  | k + 1 =>
    match mintIter active nt k with
    | .error e => .error e
    | .ok nt' => mint_nft_from_collection active nt'

/-- C6: starting from `current_supply = 0` with the collection active,
each of the first `max_supply` mint calls succeeds and raises
`current_supply` by exactly 1 (after `k` calls the supply is `k`,
reaching `max_supply`); the `(max_supply + 1)`-th call fails with the
capacity error `CollectionSoldOut`, leaving `current_supply` unchanged
(the failing transaction commits nothing). -/
theorem C6_mint_supply_exhaustion (nt : NftType) (h0 : nt.currentSupply = 0) :
    (∀ k, k ≤ nt.maxSupply →
      mintIter true nt k = .ok { nt with currentSupply := k }) ∧
    mintIter true nt (nt.maxSupply + 1) = .error .CollectionSoldOut := by
  have key : ∀ k, k ≤ nt.maxSupply →
      mintIter true nt k = .ok { nt with currentSupply := k } := by
    intro k
    induction k with
    | zero =>
      intro _
      show Except.ok nt = _
      rw [← h0]
    | succ k ih =>
      intro hk
      have hk' : k ≤ nt.maxSupply := Nat.le_of_succ_le hk
      have hlt : k < nt.maxSupply := hk
      simp only [mintIter]
      rw [ih hk']
      show mint_nft_from_collection true { nt with currentSupply := k } = _
      unfold mint_nft_from_collection
      rw [if_pos rfl, if_pos hlt]
  refine ⟨key, ?_⟩
  simp only [mintIter]
  rw [key nt.maxSupply (Nat.le_refl _)]
  show mint_nft_from_collection true { nt with currentSupply := nt.maxSupply } = _
  unfold mint_nft_from_collection
  rw [if_pos rfl, if_neg (Nat.lt_irrefl nt.maxSupply)]

/-- Item-type of the C6 witness: max supply 3, supply 0. -/
def ntC6 : NftType :=
  { collection := 0, price := 2, maxSupply := 3, currentSupply := 0,
    stakeMultiplier := 10000 }

/-- C6 witness: three mints reach supply 3; the fourth fails with
`CollectionSoldOut`. -/
theorem C6_mint_supply_exhaustion_witness :
    mintIter true ntC6 3 = .ok { ntC6 with currentSupply := 3 } ∧
    mintIter true ntC6 4 = .error .CollectionSoldOut := by
  have h := C6_mint_supply_exhaustion ntC6 rfl
  exact ⟨h.1 3 (by decide), h.2⟩

end Marketplace
